import Mathlib

/-!
Verification of the job_tracker persistence and domain-modeling core.

The Rust source is shallowly embedded: Rust `String`/`&str` values become
`List Char`, machine integers become `Nat`/`Int` with explicit range
side-conditions (`u8` payloads are `Nat < 256`, `i32` payloads are `Int` in
`[-2^31, 2^31)`, `u32` salaries are `Nat < 2^32`, `i64` ids are `Int`),
fallible Rust functions return `Option`/`Except`, and the SQLite-backed
store of `src/db.rs` becomes explicit state passing over a list of rows.
-/

namespace JobTracker

/-! ## Decimal parsing, modelling Rust `str::parse::<u8>` / `str::parse::<i32>` -/

/-- Numeric value of an ASCII digit character (Rust `char::to_digit(10)` on a
digit). -/
def charVal (c : Char) : Nat := c.toNat - 48

/-- Models the digit-accumulation loop of Rust `from_str_radix` (radix 10) as
observed through its result: `some v` iff the character list is nonempty and
all ASCII digits, in which case `v` is the denoted value.  Intermediate
overflow checks of the Rust loop are equivalent to the final range checks
applied by `parseU8` / `parseI32` below. -/
def parseNatDigits (cs : List Char) : Option Nat :=
  if cs.isEmpty || !cs.all (fun c => c.isDigit) then none
  else some (cs.foldl (fun a c => a * 10 + charVal c) 0)

/-- Models Rust `str::parse::<u8>`: an optional leading `'+'` sign, then a
nonempty run of ASCII digits whose value fits in 8 bits.  (A leading `'-'` is
not accepted for unsigned types: it fails the digit test.) -/
def parseU8 (cs : List Char) : Option Nat :=
  match parseNatDigits (if cs.head? = some '+' then cs.tail else cs) with
  | some v => if v < 256 then some v else none
  | none => none

/-- Models Rust `str::parse::<i32>`: an optional leading `'+'` or `'-'` sign,
then a nonempty run of ASCII digits whose value fits in a signed 32-bit
integer. -/
def parseI32 (cs : List Char) : Option Int :=
  if cs.head? = some '+' then
    match parseNatDigits cs.tail with
    | some v => if v ≤ 2 ^ 31 - 1 then some (v : Int) else none
    | none => none
  else if cs.head? = some '-' then
    match parseNatDigits cs.tail with
    | some v => if v ≤ 2 ^ 31 then some (-(v : Int)) else none
    | none => none
  else
    match parseNatDigits cs with
    | some v => if v ≤ 2 ^ 31 - 1 then some (v : Int) else none
    | none => none

/-! ## Decimal rendering, modelling Rust `Display` for unsigned/signed integers -/

/-- The ASCII character of a decimal digit. -/
def digitChar (d : Nat) : Char := Char.ofNat (48 + d)

/-- Fuel-indexed decimal rendering; with fuel `> n` it renders `n` in decimal,
most-significant digit first, with no leading zeros. -/
def natToDecimalAux : Nat → Nat → List Char
  | 0, _ => []
  | fuel + 1, n =>
    if n < 10 then [digitChar n]
    else natToDecimalAux fuel (n / 10) ++ [digitChar (n % 10)]

/-- Models the decimal rendering of an unsigned integer by Rust's `format!`
(`Display` for `u8`/`u32`): standard decimal digits, `"0"` for zero. -/
def natToDecimal (n : Nat) : List Char := natToDecimalAux (n + 1) n

/-- Models the decimal rendering of a signed integer by Rust's `format!`
(`Display` for `i32`): a leading minus sign for negative values. -/
def intToDecimal (a : Int) : List Char :=
  if a < 0 then '-' :: natToDecimal (-a).toNat else natToDecimal a.toNat

/-! ## The `Status` domain type (src/model.rs) -/

/-- The four-state `Status` variant type of `src/model.rs`.  The `interview`
payload models the Rust `u8` round (well-formed when `< 256`), the `offer`
payload models the Rust `i32` amount (well-formed when in `[-2^31, 2^31)`). -/
inductive Status where
  | applied : Status
  | interview : Nat → Status
  | offer : Int → Status
  | rejected : Status
deriving DecidableEq, Repr

/-- Machine-integer range side-conditions for a `Status` value, implicit in
the Rust types `u8` and `i32`. -/
def Status.wf : Status → Bool
  | .applied => true
  | .interview round => round < 256
  | .offer amount => -(2 ^ 31) ≤ amount && amount < 2 ^ 31
  | .rejected => true

/-- The characters of the literal `"applied"`. -/
def appliedTag : List Char := ['a', 'p', 'p', 'l', 'i', 'e', 'd']

/-- The characters of the literal `"rejected"`. -/
def rejectedTag : List Char := ['r', 'e', 'j', 'e', 'c', 't', 'e', 'd']

/-- The characters of the literal `"interview:"`. -/
def interviewTag : List Char := ['i', 'n', 't', 'e', 'r', 'v', 'i', 'e', 'w', ':']

/-- The characters of the literal `"offer:"`. -/
def offerTag : List Char := ['o', 'f', 'f', 'e', 'r', ':']

/-- Translation of `Status::to_db_string` (src/model.rs lines 26-33). -/
def Status.to_db_string : Status → List Char
  | .applied => appliedTag
  | .interview round => interviewTag ++ natToDecimal round
  | .offer amount => offerTag ++ intToDecimal amount
  | .rejected => rejectedTag

/-- Translation of `Status::from_db_string` (src/model.rs lines 70-90): the
match arms in source order, with `strip_prefix(..).unwrap()` rendered as
`List.drop` of the matched tag's length (the surrounding `starts_with` guard
makes the `unwrap` safe; see `from_db_string_impl` for the unguarded model). -/
def Status.from_db_string (s : List Char) : Except (List Char) Status :=
  if s = appliedTag then .ok .applied
  else if s = rejectedTag then .ok .rejected
  else if interviewTag.isPrefixOf s then
    let round_str := s.drop 10
    match parseU8 round_str with
    | some round => .ok (.interview round)
    | none => .error ("Invalid interview round: ".data ++ round_str)
  else if offerTag.isPrefixOf s then
    let amount_str := s.drop 6
    match parseI32 amount_str with
    | some amount => .ok (.offer amount)
    | none => .error ("Invalid offer amount: ".data ++ amount_str)
  else .error ("Unknown status: ".data ++ s)

/-- Models Rust `str::strip_prefix`: `some` of the remainder when the pattern
is a prefix, `none` otherwise. -/
def stripPfx (p s : List Char) : Option (List Char) :=
  if p.isPrefixOf s then some (s.drop p.length) else none

/-- Panic-aware translation of `Status::from_db_string`: the two
`strip_prefix(..).unwrap()` calls are modelled faithfully, with `none`
standing for a panic of `unwrap` on a failed `strip_prefix`. -/
def Status.from_db_string_impl (s : List Char) : Option (Except (List Char) Status) :=
  if s = appliedTag then some (.ok .applied)
  else if s = rejectedTag then some (.ok .rejected)
  else if interviewTag.isPrefixOf s then
    match stripPfx interviewTag s with
    | none => none
    | some round_str =>
      match parseU8 round_str with
      | some round => some (.ok (.interview round))
      | none => some (.error ("Invalid interview round: ".data ++ round_str))
  else if offerTag.isPrefixOf s then
    match stripPfx offerTag s with
    | none => none
    | some amount_str =>
      match parseI32 amount_str with
      | some amount => some (.ok (.offer amount))
      | none => some (.error ("Invalid offer amount: ".data ++ amount_str))
  else some (.error ("Unknown status: ".data ++ s))

/-! ## Basic lemmas about decimal rendering and parsing -/

theorem digitChar_isDigit {d : Nat} (h : d < 10) : (digitChar d).isDigit = true := by
  interval_cases d <;> decide

theorem charVal_digitChar {d : Nat} (h : d < 10) : charVal (digitChar d) = d := by
  interval_cases d <;> decide

theorem natToDecimalAux_spec :
    ∀ (fuel n : Nat), n < fuel →
      (∀ c ∈ natToDecimalAux fuel n, c.isDigit = true) ∧
      natToDecimalAux fuel n ≠ [] ∧
      ∀ acc : Nat,
        (natToDecimalAux fuel n).foldl (fun a c => a * 10 + charVal c) acc =
          acc * 10 ^ (natToDecimalAux fuel n).length + n := by
  intro fuel
  induction fuel with
  | zero => intro n h; omega
  | succ fuel ih =>
    intro n h
    by_cases h10 : n < 10
    · refine ⟨?_, ?_, ?_⟩
      · intro c hc
        simp only [natToDecimalAux, if_pos h10, List.mem_singleton] at hc
        subst hc
        exact digitChar_isDigit h10
      · simp [natToDecimalAux, if_pos h10]
      · intro acc
        simp [natToDecimalAux, if_pos h10, charVal_digitChar h10]
    · have hdiv : n / 10 < fuel := by omega
      obtain ⟨hdig, hne, hval⟩ := ih (n / 10) hdiv
      have heq : natToDecimalAux (fuel + 1) n =
          natToDecimalAux fuel (n / 10) ++ [digitChar (n % 10)] := by
        simp [natToDecimalAux, if_neg h10]
      refine ⟨?_, ?_, ?_⟩
      · intro c hc
        rw [heq] at hc
        rcases List.mem_append.mp hc with hc | hc
        · exact hdig c hc
        · rw [List.mem_singleton] at hc
          subst hc
          exact digitChar_isDigit (Nat.mod_lt _ (by omega))
      · rw [heq]; simp
      · intro acc
        rw [heq, List.foldl_append, hval acc, List.length_append]
        simp only [List.foldl_cons, List.foldl_nil, List.length_singleton]
        rw [charVal_digitChar (Nat.mod_lt _ (by omega))]
        rw [pow_succ]
        have := Nat.div_add_mod n 10
        ring_nf
        omega

theorem natToDecimal_all_digit (n : Nat) : ∀ c ∈ natToDecimal n, c.isDigit = true :=
  (natToDecimalAux_spec (n + 1) n (Nat.lt_succ_self n)).1

theorem natToDecimal_ne_nil (n : Nat) : natToDecimal n ≠ [] :=
  (natToDecimalAux_spec (n + 1) n (Nat.lt_succ_self n)).2.1

theorem natToDecimal_foldl (n acc : Nat) :
    (natToDecimal n).foldl (fun a c => a * 10 + charVal c) acc =
      acc * 10 ^ (natToDecimal n).length + n :=
  (natToDecimalAux_spec (n + 1) n (Nat.lt_succ_self n)).2.2 acc

theorem parseNatDigits_natToDecimal (n : Nat) : parseNatDigits (natToDecimal n) = some n := by
  unfold parseNatDigits
  rw [if_neg]
  · rw [natToDecimal_foldl n 0]
    simp
  · simp only [Bool.or_eq_true, Bool.not_eq_true', List.all_eq_false, not_or]
    constructor
    · simpa [List.isEmpty_iff] using natToDecimal_ne_nil n
    · push_neg
      intro c hc
      simp [natToDecimal_all_digit n c hc]

theorem natToDecimal_head_digit (n : Nat) {c : Char} (h : (natToDecimal n).head? = some c) :
    c.isDigit = true := by
  cases hd : natToDecimal n with
  | nil => exact absurd hd (natToDecimal_ne_nil n)
  | cons x xs =>
    rw [hd] at h
    simp only [List.head?_cons, Option.some.injEq] at h
    subst h
    exact natToDecimal_all_digit n x (hd ▸ List.mem_cons_self x xs)

theorem natToDecimal_head_ne_plus (n : Nat) : (natToDecimal n).head? ≠ some '+' := by
  intro h
  have := natToDecimal_head_digit n h
  simp at this

theorem natToDecimal_head_ne_minus (n : Nat) : (natToDecimal n).head? ≠ some '-' := by
  intro h
  have := natToDecimal_head_digit n h
  simp at this

theorem parseU8_natToDecimal {n : Nat} (h : n < 256) : parseU8 (natToDecimal n) = some n := by
  unfold parseU8
  rw [if_neg (natToDecimal_head_ne_plus n)]
  rw [parseNatDigits_natToDecimal n]
  show (if n < 256 then some n else none) = some n
  rw [if_pos h]

theorem parseI32_intToDecimal {a : Int} (h1 : -(2 ^ 31) ≤ a) (h2 : a < 2 ^ 31) :
    parseI32 (intToDecimal a) = some a := by
  by_cases hneg : a < 0
  · have hrw : intToDecimal a = '-' :: natToDecimal (-a).toNat := by
      unfold intToDecimal
      rw [if_pos hneg]
    rw [hrw]
    unfold parseI32
    rw [if_neg (by simp), if_pos (by simp)]
    show (match parseNatDigits ((('-' : Char) :: natToDecimal (-a).toNat).tail) with
          | some v => if v ≤ 2 ^ 31 then some (-(v : Int)) else none
          | none => none) = some a
    rw [List.tail_cons, parseNatDigits_natToDecimal]
    show (if (-a).toNat ≤ 2 ^ 31 then some (-(((-a).toNat : Nat) : Int)) else none) = some a
    rw [if_pos (by omega)]
    congr 1
    omega
  · have hrw : intToDecimal a = natToDecimal a.toNat := by
      unfold intToDecimal
      rw [if_neg hneg]
    rw [hrw]
    unfold parseI32
    rw [if_neg (natToDecimal_head_ne_plus _), if_neg (natToDecimal_head_ne_minus _)]
    show (match parseNatDigits (natToDecimal a.toNat) with
          | some v => if v ≤ 2 ^ 31 - 1 then some (v : Int) else none
          | none => none) = some a
    rw [parseNatDigits_natToDecimal]
    show (if a.toNat ≤ 2 ^ 31 - 1 then some ((a.toNat : Nat) : Int) else none) = some a
    rw [if_pos (by omega)]
    congr 1
    omega

/-! ## Prefix and tag lemmas -/

theorem isPrefixOf_append_self (p s : List Char) : p.isPrefixOf (p ++ s) = true := by
  induction p with
  | nil => simp
  | cons a as ih => simp [List.isPrefixOf_cons₂, ih]

theorem interview_append_ne_applied (x : List Char) : interviewTag ++ x ≠ appliedTag := by
  intro h
  have := congrArg List.head? h
  simp [interviewTag, appliedTag] at this

theorem interview_append_ne_rejected (x : List Char) : interviewTag ++ x ≠ rejectedTag := by
  intro h
  have := congrArg List.head? h
  simp [interviewTag, rejectedTag] at this

theorem offer_append_ne_applied (x : List Char) : offerTag ++ x ≠ appliedTag := by
  intro h
  have := congrArg List.head? h
  simp [offerTag, appliedTag] at this

theorem offer_append_ne_rejected (x : List Char) : offerTag ++ x ≠ rejectedTag := by
  intro h
  have := congrArg List.head? h
  simp [offerTag, rejectedTag] at this

theorem interview_not_prefix_of_offer (x : List Char) :
    interviewTag.isPrefixOf (offerTag ++ x) = false := by
  simp [interviewTag, offerTag, List.isPrefixOf]

theorem drop_interviewTag (x : List Char) : (interviewTag ++ x).drop 10 = x :=
  List.drop_left interviewTag x

theorem drop_offerTag (x : List Char) : (offerTag ++ x).drop 6 = x :=
  List.drop_left offerTag x

/-! ## Round-trip of the `Status` encoding -/

theorem from_to_db_string (st : Status) (h : st.wf = true) :
    Status.from_db_string st.to_db_string = .ok st := by
  cases st with
  | applied => rfl
  | rejected => rfl
  | interview round =>
    have hr : round < 256 := by simpa [Status.wf] using h
    show Status.from_db_string (interviewTag ++ natToDecimal round) = .ok (.interview round)
    unfold Status.from_db_string
    rw [if_neg (interview_append_ne_applied _), if_neg (interview_append_ne_rejected _),
      if_pos (isPrefixOf_append_self _ _)]
    show (match parseU8 ((interviewTag ++ natToDecimal round).drop 10) with
          | some r => Except.ok (Status.interview r)
          | none => Except.error ("Invalid interview round: ".data ++
              (interviewTag ++ natToDecimal round).drop 10)) = .ok (.interview round)
    rw [drop_interviewTag, parseU8_natToDecimal hr]
  | offer amount =>
    have ha : -(2 ^ 31) ≤ amount ∧ amount < 2 ^ 31 := by simpa [Status.wf] using h
    show Status.from_db_string (offerTag ++ intToDecimal amount) = .ok (.offer amount)
    unfold Status.from_db_string
    rw [if_neg (offer_append_ne_applied _), if_neg (offer_append_ne_rejected _)]
    rw [if_neg (by simp [interview_not_prefix_of_offer]), if_pos (isPrefixOf_append_self _ _)]
    show (match parseI32 ((offerTag ++ intToDecimal amount).drop 6) with
          | some a => Except.ok (Status.offer a)
          | none => Except.error ("Invalid offer amount: ".data ++
              (offerTag ++ intToDecimal amount).drop 6)) = .ok (.offer amount)
    rw [drop_offerTag, parseI32_intToDecimal ha.1 ha.2]

/-- C1: decoding the string produced by encoding any (well-formed) `Status`
value yields that value again. -/
theorem c1_status_roundtrip (st : Status) (h : st.wf = true) :
    Status.from_db_string st.to_db_string = .ok st :=
  from_to_db_string st h

theorem c1_status_roundtrip_witness :
    Status.wf (.offer (-42)) = true ∧
      Status.from_db_string (Status.to_db_string (.offer (-42))) = .ok (.offer (-42)) :=
  ⟨by decide, c1_status_roundtrip (.offer (-42)) (by decide)⟩

/-! ## The set of accepted input shapes (for C2) -/

/-- Refinement-side definition, following the amended claim's words: a
nonempty run of ASCII decimal digits. -/
def decDigits (cs : List Char) : Bool := !cs.isEmpty && cs.all (fun c => c.isDigit)

/-- Refinement-side definition: the numeric value denoted by a digit run. -/
def digitsVal (cs : List Char) : Nat := cs.foldl (fun a c => a * 10 + charVal c) 0

/-- Refinement-side definition, following the amended claim's words: an
unsigned-8-bit suffix shape — an optional leading plus sign, then decimal
digits denoting a value at most 255. -/
def u8Shape (cs : List Char) : Bool :=
  decDigits (if cs.head? = some '+' then cs.tail else cs) &&
    decide (digitsVal (if cs.head? = some '+' then cs.tail else cs) < 256)

/-- Refinement-side definition, following the amended claim's words: a
signed-32-bit suffix shape — an optional leading plus or minus sign, then
decimal digits denoting a value within the signed 32-bit range. -/
def i32Shape (cs : List Char) : Bool :=
  if cs.head? = some '+' then decDigits cs.tail && decide (digitsVal cs.tail ≤ 2 ^ 31 - 1)
  else if cs.head? = some '-' then decDigits cs.tail && decide (digitsVal cs.tail ≤ 2 ^ 31)
  else decDigits cs && decide (digitsVal cs ≤ 2 ^ 31 - 1)

/-- Refinement-side definition: the four encoded shapes of the amended claim. -/
def encodedShape (s : List Char) : Bool :=
  decide (s = appliedTag) || decide (s = rejectedTag) ||
    (interviewTag.isPrefixOf s && u8Shape (s.drop 10)) ||
    (offerTag.isPrefixOf s && i32Shape (s.drop 6))

theorem parseNatDigits_eq_some_iff (cs : List Char) (v : Nat) :
    parseNatDigits cs = some v ↔ (decDigits cs = true ∧ digitsVal cs = v) := by
  unfold parseNatDigits decDigits digitsVal
  by_cases h : (cs.isEmpty || !cs.all (fun c => c.isDigit)) = true
  · rw [if_pos h]
    simp only [Bool.or_eq_true, Bool.not_eq_true'] at h
    constructor
    · intro hc
      exact absurd hc (by simp)
    · intro hc
      rcases h with h | h
      · simp [h] at hc
      · simp [h] at hc
  · rw [if_neg h]
    simp only [Bool.or_eq_true, Bool.not_eq_true', not_or, Bool.not_eq_false] at h
    simp [h.1, h.2]

theorem parseU8_shape {cs : List Char} {v : Nat} (h : parseU8 cs = some v) :
    u8Shape cs = true := by
  unfold parseU8 at h
  unfold u8Shape
  cases hp : parseNatDigits (if cs.head? = some '+' then cs.tail else cs) with
  | none => rw [hp] at h; simp at h
  | some w =>
    rw [hp] at h
    by_cases hw : w < 256
    · obtain ⟨hd, hv⟩ := (parseNatDigits_eq_some_iff _ w).mp hp
      simp only [hd, hv, Bool.true_and, decide_eq_true_eq]
      exact hw
    · simp [hw] at h

theorem parseI32_shape {cs : List Char} {v : Int} (h : parseI32 cs = some v) :
    i32Shape cs = true := by
  unfold parseI32 at h
  unfold i32Shape
  by_cases h1 : cs.head? = some '+'
  · rw [if_pos h1] at h ⊢
    cases hp : parseNatDigits cs.tail with
    | none => rw [hp] at h; simp at h
    | some w =>
      rw [hp] at h
      by_cases hw : w ≤ 2 ^ 31 - 1
      · obtain ⟨hd, hv⟩ := (parseNatDigits_eq_some_iff _ w).mp hp
        simp only [hd, hv, Bool.true_and, decide_eq_true_eq]
        exact hw
      · simp at h
        exact absurd h.1 (by omega)
  · rw [if_neg h1] at h ⊢
    by_cases h2 : cs.head? = some '-'
    · rw [if_pos h2] at h ⊢
      cases hp : parseNatDigits cs.tail with
      | none => rw [hp] at h; simp at h
      | some w =>
        rw [hp] at h
        by_cases hw : w ≤ 2 ^ 31
        · obtain ⟨hd, hv⟩ := (parseNatDigits_eq_some_iff _ w).mp hp
          simp only [hd, hv, Bool.true_and, decide_eq_true_eq]
          exact hw
        · simp at h
          exact absurd h.1 (by omega)
    · rw [if_neg h2] at h ⊢
      cases hp : parseNatDigits cs with
      | none => rw [hp] at h; simp at h
      | some w =>
        rw [hp] at h
        by_cases hw : w ≤ 2 ^ 31 - 1
        · obtain ⟨hd, hv⟩ := (parseNatDigits_eq_some_iff _ w).mp hp
          simp only [hd, hv, Bool.true_and, decide_eq_true_eq]
          exact hw
        · simp at h
          exact absurd h.1 (by omega)

/-- C2 (counterexample): the string `"interview:+3"` lies outside the four
shapes enumerated by the claim (its suffix `"+3"` is not a run of decimal
digits), yet `from_db_string` accepts it, because Rust's `str::parse::<u8>`
tolerates an optional leading plus sign. -/
theorem c2_decode_shapes_counterexample :
    Status.from_db_string
        ['i', 'n', 't', 'e', 'r', 'v', 'i', 'e', 'w', ':', '+', '3'] =
        .ok (.interview 3) ∧
      ('+' ∈ (['i', 'n', 't', 'e', 'r', 'v', 'i', 'e', 'w', ':', '+', '3'] : List Char).drop 10
        ∧ ¬ ('+' : Char).isDigit = true) := by
  refine ⟨rfl, by decide, by decide⟩

/-- C2 (amended): `from_db_string` rejects every string outside the four
shapes, where the interview suffix allows an optional leading plus sign and
the offer suffix allows an optional leading plus or minus sign; conversely
every string `to_db_string` can produce is accepted. -/
theorem c2_decode_shapes :
    (∀ s : List Char, encodedShape s = false → ∃ e, Status.from_db_string s = .error e) ∧
      ∀ st : Status, st.wf = true → Status.from_db_string st.to_db_string = .ok st := by
  constructor
  · intro s hs
    unfold encodedShape at hs
    simp only [Bool.or_eq_false_iff, Bool.and_eq_false_iff, decide_eq_false_iff_not] at hs
    obtain ⟨⟨⟨hna, hnr⟩, hint⟩, hoff⟩ := hs
    unfold Status.from_db_string
    rw [if_neg hna, if_neg hnr]
    by_cases h3 : interviewTag.isPrefixOf s = true
    · rw [if_pos h3]
      cases hp : parseU8 (s.drop 10) with
      | none => exact ⟨"Invalid interview round: ".data ++ s.drop 10, by simp [hp]⟩
      | some v =>
        rcases hint with hint | hint
        · exact absurd h3 (by simp [hint])
        · exact absurd (parseU8_shape hp) (by simp [hint])
    · rw [if_neg h3]
      by_cases h4 : offerTag.isPrefixOf s = true
      · rw [if_pos h4]
        cases hp : parseI32 (s.drop 6) with
        | none => exact ⟨"Invalid offer amount: ".data ++ s.drop 6, by simp [hp]⟩
        | some v =>
          rcases hoff with hoff | hoff
          · exact absurd h4 (by simp [hoff])
          · exact absurd (parseI32_shape hp) (by simp [hoff])
      · rw [if_neg h4]
        exact ⟨_, rfl⟩
  · exact from_to_db_string

theorem c2_decode_shapes_witness :
    (∃ e, Status.from_db_string ['b', 'o', 'g', 'u', 's'] = .error e) ∧
      Status.from_db_string (Status.to_db_string .applied) = .ok .applied :=
  ⟨c2_decode_shapes.1 ['b', 'o', 'g', 'u', 's'] (by decide),
    c2_decode_shapes.2 .applied (by decide)⟩

/-- C10: the panic-aware model of `from_db_string` never panics — on every
input it returns the value of the total function, so the two guarded
`strip_prefix(..).unwrap()` calls are unreachable as panics and the function
always yields either a `Status` or a decode error. -/
theorem c10_from_db_string_total (s : List Char) :
    Status.from_db_string_impl s = some (Status.from_db_string s) := by
  unfold Status.from_db_string_impl Status.from_db_string
  by_cases h1 : s = appliedTag
  · simp [h1]
  · rw [if_neg h1, if_neg h1]
    by_cases h2 : s = rejectedTag
    · simp [h2]
    · rw [if_neg h2, if_neg h2]
      by_cases h3 : interviewTag.isPrefixOf s = true
      · rw [if_pos h3, if_pos h3]
        unfold stripPfx
        rw [if_pos h3]
        show (match parseU8 (s.drop 10) with
              | some round => some (Except.ok (Status.interview round))
              | none => some (Except.error ("Invalid interview round: ".data ++
                  s.drop 10))) = _
        cases hp : parseU8 (s.drop 10) <;> simp [hp]
      · rw [if_neg h3, if_neg h3]
        by_cases h4 : offerTag.isPrefixOf s = true
        · rw [if_pos h4, if_pos h4]
          unfold stripPfx
          rw [if_pos h4]
          show (match parseI32 (s.drop 6) with
                | some amount => some (Except.ok (Status.offer amount))
                | none => some (Except.error ("Invalid offer amount: ".data ++
                    s.drop 6))) = _
          cases hp : parseI32 (s.drop 6) <;> simp [hp]
        · rw [if_neg h4, if_neg h4]

/-! ## Calendar dates, modelling the `time` crate's `Date`

The `time` crate guarantees every constructed `Date` is a valid calendar
date; the model keeps the year/month/day triple and carries validity as the
predicate `Date.valid`, over the crate's full supported year range
`-9999..=9999`.  The crate's `Display` writes the year zero-padded to four
digits with a leading minus sign for negative years, while its default
ISO-8601 date parsing accepts only an unsigned four-digit year, so only the
nonnegative years round-trip (`Date.isoRoundtrip`). -/

/-- Proleptic-Gregorian leap-year rule, as implemented by the `time` crate. -/
def isLeap (y : Int) : Bool := y % 4 = 0 && (y % 100 ≠ 0 || y % 400 = 0)

/-- Number of days of a month (month `1`-`12`) in year `y`. -/
def daysInMonth (y : Int) (m : Nat) : Nat :=
  if m = 2 then (if isLeap y then 29 else 28)
  else if m = 4 || m = 6 || m = 9 || m = 11 then 30
  else 31

/-- A calendar date, modelling `time::Date` as its calendar triple. -/
structure Date where
  year : Int
  month : Nat
  day : Nat
deriving DecidableEq, Repr

/-- Validity of a calendar triple: the constraint `time::Date` maintains by
construction, over the crate's supported year range `-9999..=9999`. -/
def Date.valid (d : Date) : Bool :=
  -9999 ≤ d.year && d.year ≤ 9999 && 1 ≤ d.month && d.month ≤ 12 &&
    1 ≤ d.day && d.day ≤ daysInMonth d.year d.month

/-- Zero-padded decimal rendering to a fixed width, modelling Rust's
`{:0width$}` formatting of an unsigned value. -/
def padNum (width n : Nat) : List Char :=
  List.replicate (width - (natToDecimal n).length) '0' ++ natToDecimal n

/-- Models `time::Date`'s `Display` (used by `d.to_string()` on the insert
and update paths): `YYYY-MM-DD` with the year zero-padded to four digits and
written with a leading minus sign when negative (e.g. `"-0005-03-15"`). -/
def dateRender (d : Date) : List Char :=
  (if d.year < 0 then '-' :: padNum 4 (-d.year).toNat else padNum 4 d.year.toNat) ++
    '-' :: (padNum 2 d.month ++ '-' :: padNum 2 d.day)

/-- Models `Date::parse` with `Iso8601::DATE` (the read path of
`row_to_job_application`): the default ISO-8601 configuration reads an
unsigned four-digit year, so the accepted calendar-date shape is
`YYYY-MM-DD` and a signed year is rejected; the parsed triple is validated
the same way `Date::from_calendar_date` validates it. -/
def dateParse (s : List Char) : Option Date :=
  match s with
  | [y1, y2, y3, y4, c1, m1, m2, c2, d1, d2] =>
    if c1 = '-' && c2 = '-' &&
        ([y1, y2, y3, y4, m1, m2, d1, d2].all (fun c => c.isDigit)) then
      let dt : Date :=
        ⟨(digitsVal [y1, y2, y3, y4] : Int), digitsVal [m1, m2], digitsVal [d1, d2]⟩
      if dt.valid then some dt else none
    else none
  | _ => none

/-- The dates whose rendered text the read path can parse back: those with a
nonnegative year, since `dateRender` writes a leading minus sign for
negative years and `dateParse` accepts only unsigned years. -/
def Date.isoRoundtrip (d : Date) : Bool := 0 ≤ d.year

/-! ## Lemmas: date rendering round-trips through parsing -/

theorem natToDecimalAux_length_le :
    ∀ (fuel n k : Nat), n < fuel → n < 10 ^ k → 1 ≤ k →
      (natToDecimalAux fuel n).length ≤ k := by
  intro fuel
  induction fuel with
  | zero => intro n k h; omega
  | succ fuel ih =>
    intro n k h hk h1
    by_cases h10 : n < 10
    · simp [natToDecimalAux, if_pos h10, h1]
    · have hk2 : 2 ≤ k := by
        by_contra hcon
        interval_cases k
        omega
      have hdiv : n / 10 < fuel := by omega
      have hpow : n / 10 < 10 ^ (k - 1) := by
        rw [Nat.div_lt_iff_lt_mul (by omega)]
        have : 10 ^ (k - 1) * 10 = 10 ^ k := by
          rw [← pow_succ]
          congr 1
          omega
        omega
      have := ih (n / 10) (k - 1) hdiv hpow (by omega)
      simp only [natToDecimalAux, if_neg h10, List.length_append, List.length_singleton]
      omega

theorem natToDecimal_length_le {n k : Nat} (h : n < 10 ^ k) (h1 : 1 ≤ k) :
    (natToDecimal n).length ≤ k :=
  natToDecimalAux_length_le (n + 1) n k (Nat.lt_succ_self n) h h1

theorem digitsVal_replicate_zero (z : Nat) (ds : List Char) :
    digitsVal (List.replicate z '0' ++ ds) = digitsVal ds := by
  unfold digitsVal
  rw [List.foldl_append]
  congr 1
  induction z with
  | zero => rfl
  | succ z ih => simpa [List.replicate_succ, charVal] using ih

theorem padNum_spec {w n : Nat} (h : n < 10 ^ w) (h1 : 1 ≤ w) :
    (padNum w n).length = w ∧ (∀ c ∈ padNum w n, c.isDigit = true) ∧
      digitsVal (padNum w n) = n := by
  have hle : (natToDecimal n).length ≤ w := natToDecimal_length_le h h1
  refine ⟨?_, ?_, ?_⟩
  · simp only [padNum, List.length_append, List.length_replicate]
    omega
  · intro c hc
    simp only [padNum, List.mem_append, List.mem_replicate] at hc
    rcases hc with ⟨_, hc⟩ | hc
    · subst hc; decide
    · exact natToDecimal_all_digit n c hc
  · rw [padNum, digitsVal_replicate_zero]
    have := natToDecimal_foldl n 0
    unfold digitsVal
    omega

theorem length_four_cases (l : List Char) (h : l.length = 4) :
    ∃ a b c d, l = [a, b, c, d] := by
  rcases l with _ | ⟨a, _ | ⟨b, _ | ⟨c, _ | ⟨d, _ | ⟨e, t⟩⟩⟩⟩⟩ <;>
    simp only [List.length_nil, List.length_cons] at h
  · omega
  · omega
  · omega
  · omega
  · exact ⟨a, b, c, d, rfl⟩
  · omega

theorem length_two_cases (l : List Char) (h : l.length = 2) :
    ∃ a b, l = [a, b] := by
  rcases l with _ | ⟨a, _ | ⟨b, _ | ⟨c, t⟩⟩⟩ <;>
    simp only [List.length_nil, List.length_cons] at h
  · omega
  · omega
  · exact ⟨a, b, rfl⟩
  · omega

theorem dateParse_dateRender (d : Date) (h : d.valid = true) (hy4 : 0 ≤ d.year) :
    dateParse (dateRender d) = some d := by
  have hv := h
  unfold Date.valid at hv
  simp only [Bool.and_eq_true, decide_eq_true_eq] at hv
  obtain ⟨⟨⟨⟨⟨hy0, hy1⟩, hm0⟩, hm1⟩, hd0⟩, hd1⟩ := hv
  have hy : d.year.toNat < 10 ^ 4 := by omega
  have hm : d.month < 10 ^ 2 := by omega
  have hdd : d.day < 10 ^ 2 := by
    have : daysInMonth d.year d.month ≤ 31 := by
      unfold daysInMonth
      split
      · split <;> omega
      · split <;> omega
    omega
  obtain ⟨ly, dy, vy⟩ := padNum_spec hy (by omega)
  obtain ⟨lm, dm, vm⟩ := padNum_spec hm (by omega)
  obtain ⟨ld, dd2, vd⟩ := padNum_spec hdd (by omega)
  obtain ⟨y1, y2, y3, y4, hyeq⟩ := length_four_cases _ ly
  obtain ⟨m1, m2, hmeq⟩ := length_two_cases _ lm
  obtain ⟨d1, d2, hdeq⟩ := length_two_cases _ ld
  rw [hyeq] at dy vy
  rw [hmeq] at dm vm
  rw [hdeq] at dd2 vd
  have hrw : dateRender d = [y1, y2, y3, y4, '-', m1, m2, '-', d1, d2] := by
    unfold dateRender
    rw [if_neg (by omega), hyeq, hmeq, hdeq]
    rfl
  rw [hrw]
  show (if (decide (('-' : Char) = '-') && decide (('-' : Char) = '-') &&
        ([y1, y2, y3, y4, m1, m2, d1, d2].all (fun c => c.isDigit))) = true
      then
        (if (⟨(digitsVal [y1, y2, y3, y4] : Int), digitsVal [m1, m2],
            digitsVal [d1, d2]⟩ : Date).valid = true
         then some (⟨(digitsVal [y1, y2, y3, y4] : Int), digitsVal [m1, m2],
            digitsVal [d1, d2]⟩ : Date)
         else none)
      else none) = some d
  have hall : ([y1, y2, y3, y4, m1, m2, d1, d2].all (fun c => c.isDigit)) = true := by
    have e1 := dy y1 (by simp)
    have e2 := dy y2 (by simp)
    have e3 := dy y3 (by simp)
    have e4 := dy y4 (by simp)
    have e5 := dm m1 (by simp)
    have e6 := dm m2 (by simp)
    have e7 := dd2 d1 (by simp)
    have e8 := dd2 d2 (by simp)
    simp [e1, e2, e3, e4, e5, e6, e7, e8]
  rw [if_pos (by simp [hall])]
  have hdt : (⟨(digitsVal [y1, y2, y3, y4] : Int), digitsVal [m1, m2],
      digitsVal [d1, d2]⟩ : Date) = d := by
    rw [vy, vm, vd]
    have hy2 : (0 : Int) ≤ d.year := hy4
    cases d with
    | mk y m dd =>
      have hy3 : (0 : Int) ≤ y := hy2
      simp only [Date.mk.injEq, and_true]
      omega
  rw [hdt, if_pos h]

/-! ## The remaining domain types (src/model.rs) -/

/-- The `SalaryRange` value type: Rust `u32` bounds become `Nat` with the
range side-condition `< 2^32` carried by `JobApplication.wf`. -/
structure SalaryRange where
  min : Nat
  max : Nat
deriving DecidableEq, Repr

/-- The `JobApplication` aggregate record of `src/model.rs`.  The `id` models
`Option<i64>`, `cv` models the `PathBuf` through its text form (the store
serializes it with `to_string_lossy`, the identity on valid UTF-8). -/
structure JobApplication where
  id : Option Int
  date : Option Date
  cv : Option (List Char)
  company : List Char
  position : List Char
  status : Status
  location : List Char
  salary : SalaryRange
deriving DecidableEq, Repr

/-- Range and validity side-conditions of a `JobApplication`, implicit in the
Rust types (`time::Date` validity, `u8`/`i32` status payloads, `u32`
salaries). -/
def JobApplication.wf (j : JobApplication) : Bool :=
  j.date.all Date.valid && j.status.wf &&
    decide (j.salary.min < 2 ^ 32) && decide (j.salary.max < 2 ^ 32)

/-! ## Builder-style field setters of `JobApplication` (src/model.rs) -/

/-- Models `Month::try_from(month)`: `some` exactly for months `1`-`12`. -/
def monthTryFrom (m : Nat) : Option Nat :=
  if 1 ≤ m ∧ m ≤ 12 then some m else none

/-- Models `Date::from_calendar_date(year, month, day)` over the modelled
year range: `some` exactly for valid calendar triples. -/
def dateFromCalendar (y : Int) (m d : Nat) : Option Date :=
  if (⟨y, m, d⟩ : Date).valid then some (⟨y, m, d⟩ : Date) else none

/-- Translation of the `date` setter (src/model.rs lines 185-189): the two
`unwrap()` calls on `Month::try_from` and `Date::from_calendar_date` are
modelled by `Option`, with `none` standing for a panic. -/
def JobApplication.setDate (j : JobApplication) (y : Int) (m d : Nat) :
    Option JobApplication :=
  match monthTryFrom m with
  | none => none
  | some m2 =>
    match dateFromCalendar y m2 d with
    | none => none
    | some dt => some { j with date := some dt }

/-- Translation of the `company` setter (src/model.rs lines 204-207). -/
def JobApplication.setCompany (j : JobApplication) (company : List Char) : JobApplication :=
  { j with company := company }

/-- Translation of the `position` setter. -/
def JobApplication.setPosition (j : JobApplication) (position : List Char) : JobApplication :=
  { j with position := position }

/-- Translation of the `location` setter. -/
def JobApplication.setLocation (j : JobApplication) (location : List Char) : JobApplication :=
  { j with location := location }

/-- Translation of the `salary` setter. -/
def JobApplication.setSalary (j : JobApplication) (salary : SalaryRange) : JobApplication :=
  { j with salary := salary }

/-- Translation of the `cv` setter (`PathBuf::from` on text is the identity
in this embedding). -/
def JobApplication.setCv (j : JobApplication) (cv : List Char) : JobApplication :=
  { j with cv := some cv }

/-- Translation of the `status` setter. -/
def JobApplication.setStatus (j : JobApplication) (status : Status) : JobApplication :=
  { j with status := status }

/-! ## The persistence store (src/db.rs)

The SQLite table `job_applications` is modelled as a list of rows together
with the engine's autoincrement counter (`nextId`, SQLite `AUTOINCREMENT`)
and a strictly monotone creation marker (`nextMark`, abstracting the
`created_at DATETIME DEFAULT CURRENT_TIMESTAMP` column at the granularity at
which it orders rows).  Each store operation translates one SQL statement of
`src/db.rs` together with its surrounding Rust glue. -/

/-- One row of the `job_applications` table, column for column. -/
structure Row where
  id : Int
  date : Option (List Char)
  cv_path : Option (List Char)
  company : List Char
  position : List Char
  status : List Char
  location : List Char
  salary_min : Int
  salary_max : Int
  created_at : Nat
deriving DecidableEq, Repr

/-- The `DbError` enum of src/db.rs (the `Connection` payload is irrelevant
to the modelled behaviour). -/
inductive DbError where
  | connection : DbError
  | invalidStatus : List Char → DbError
  | notFound : Int → DbError
deriving DecidableEq, Repr

/-- The store state: table contents plus the engine counters. -/
structure DbState where
  nextId : Int
  nextMark : Nat
  rows : List Row
deriving DecidableEq, Repr

/-- Invariants maintained by the SQLite engine for this schema: ids are
assigned by `AUTOINCREMENT` starting at 1 and strictly increase in insertion
order, and creation markers strictly increase in insertion order. -/
def DbState.wf (db : DbState) : Prop :=
  1 ≤ db.nextId ∧
    db.rows.Pairwise (fun a b => a.created_at < b.created_at) ∧
    db.rows.Pairwise (fun a b => a.id < b.id) ∧
    ∀ r ∈ db.rows, 1 ≤ r.id ∧ r.id < db.nextId ∧ r.created_at < db.nextMark

instance (db : DbState) : Decidable db.wf := by
  unfold DbState.wf
  infer_instance

/-- The row written for a job by `insert_job`'s `INSERT` statement
(src/db.rs lines 149-172): date as ISO text or absent, CV path as text or
absent, status via the encoding, salaries widened from `u32` to `i64`. -/
def jobToRow (db : DbState) (job : JobApplication) : Row :=
  { id := db.nextId
    date := job.date.map dateRender
    cv_path := job.cv
    company := job.company
    position := job.position
    status := job.status.to_db_string
    location := job.location
    salary_min := (job.salary.min : Int)
    salary_max := (job.salary.max : Int)
    created_at := db.nextMark }

/-- Translation of `Database::insert_job`: appends the new row and returns
`last_insert_rowid()`, the freshly assigned identifier. -/
def insert_job (db : DbState) (job : JobApplication) : DbState × Int :=
  ({ nextId := db.nextId + 1, nextMark := db.nextMark + 1,
     rows := db.rows ++ [jobToRow db job] }, db.nextId)

/-- Models `u32::try_from(v).unwrap_or(0)` on an `i64` column value
(src/db.rs lines 435-438). -/
def u32TryFromOrZero (v : Int) : Nat :=
  if 0 ≤ v ∧ v < 2 ^ 32 then v.toNat else 0

/-- The date-column half of `row_to_job_application`: re-parse the stored
ISO text, surfacing a parse failure as a decode error naming the text. -/
def parseDateCol : Option (List Char) → Except DbError (Option Date)
  | none => .ok none
  | some ds =>
    match dateParse ds with
    | some d => .ok (some d)
    | none => .error (.invalidStatus ("Invalid date format: ".data ++ ds))

/-- Translation of `Database::row_to_job_application` (src/db.rs lines
410-450): date re-parsed first, then status, then the clamped salary read. -/
def row_to_job_application (row : Row) : Except DbError JobApplication :=
  match parseDateCol row.date with
  | .error e => .error e
  | .ok date =>
    match Status.from_db_string row.status with
    | .error e => .error (.invalidStatus e)
    | .ok status =>
      .ok { id := some row.id
            date := date
            cv := row.cv_path
            company := row.company
            position := row.position
            status := status
            location := row.location
            salary := ⟨u32TryFromOrZero row.salary_min, u32TryFromOrZero row.salary_max⟩ }

/-- Translation of `Database::get_job_by_id`: `SELECT .. WHERE id = ?` with
`fetch_optional`, then `NotFound` on a missing row. -/
def get_job_by_id (db : DbState) (i : Int) : Except DbError JobApplication :=
  match db.rows.find? (fun r => r.id == i) with
  | some r => row_to_job_application r
  | none => .error (.notFound i)

/-- The updated image of a row under `update_job`'s `UPDATE` statement: every
mutable column overwritten, `id` and `created_at` untouched. -/
def applyUpdate (job : JobApplication) (r : Row) : Row :=
  { r with
    date := job.date.map dateRender
    cv_path := job.cv
    company := job.company
    position := job.position
    status := job.status.to_db_string
    location := job.location
    salary_min := (job.salary.min : Int)
    salary_max := (job.salary.max : Int) }

/-- Translation of `Database::update_job` (src/db.rs lines 280-310): a record
without an id is rejected with `NotFound(0)`; otherwise the `UPDATE .. WHERE
id = ?` runs and `rows_affected() == 0` is turned into `NotFound(id)`. -/
def update_job (db : DbState) (job : JobApplication) : DbState × Except DbError Unit :=
  match job.id with
  | none => (db, .error (.notFound 0))
  | some i =>
    if (db.rows.filter (fun r => r.id == i)).length = 0 then (db, .error (.notFound i))
    else ({ db with rows := db.rows.map (fun r => if r.id == i then applyUpdate job r else r) },
      .ok ())

/-- Translation of `Database::delete_job` (src/db.rs lines 335-346):
`DELETE .. WHERE id = ?`, with `rows_affected() == 0` turned into
`NotFound(id)`. -/
def delete_job (db : DbState) (i : Int) : DbState × Except DbError Unit :=
  if (db.rows.filter (fun r => !(r.id == i))).length = db.rows.length then
    (db, .error (.notFound i))
  else ({ db with rows := db.rows.filter (fun r => !(r.id == i)) }, .ok ())

/-- Translation of `Database::clear_all`: unconditionally removes every row
and succeeds. -/
def clear_all (db : DbState) : DbState × Except DbError Unit :=
  ({ db with rows := [] }, .ok ())

/-- The deserialization loop of `get_all_jobs`: convert rows in order,
stopping at the first failing row. -/
def collectJobs : List Row → Except DbError (List JobApplication)
  | [] => .ok []
  | r :: rest =>
    match row_to_job_application r with
    | .error e => .error e
    | .ok j =>
      match collectJobs rest with
      | .error e => .error e
      | .ok js => .ok (j :: js)

/-- The comparison realised by `ORDER BY created_at DESC`: row `a` sorts
before row `b` when its creation marker is at least as large. -/
def rowLater (a b : Row) : Prop := b.created_at ≤ a.created_at

instance : DecidableRel rowLater :=
  fun a b => inferInstanceAs (Decidable (b.created_at ≤ a.created_at))

/-- Translation of `Database::get_all_jobs` (src/db.rs lines 198-210):
`SELECT * .. ORDER BY created_at DESC` followed by the row-conversion
loop. -/
def get_all_jobs (db : DbState) : Except DbError (List JobApplication) :=
  collectJobs (List.insertionSort rowLater db.rows)

/-! ## Not-found behaviour (C4, C6) -/

/-- C4: for an identifier with no matching row, fetch-by-id, delete, and
update of a record carrying that id all return the not-found error carrying
exactly the requested identifier (and leave the store unchanged). -/
theorem c4_not_found_errors (db : DbState) (i : Int) (job : JobApplication)
    (hnone : ∀ r ∈ db.rows, r.id ≠ i) (hid : job.id = some i) :
    get_job_by_id db i = .error (.notFound i) ∧
      delete_job db i = (db, .error (.notFound i)) ∧
      update_job db job = (db, .error (.notFound i)) := by
  refine ⟨?_, ?_, ?_⟩
  · unfold get_job_by_id
    have hf : db.rows.find? (fun r => r.id == i) = none := by
      rw [List.find?_eq_none]
      intro x hx
      simpa using hnone x hx
    rw [hf]
  · unfold delete_job
    have hf : db.rows.filter (fun r => !(r.id == i)) = db.rows := by
      rw [List.filter_eq_self]
      intro a ha
      simpa using hnone a ha
    rw [hf, if_pos rfl]
  · unfold update_job
    simp only [hid]
    have hf : db.rows.filter (fun r => r.id == i) = [] := by
      rw [List.filter_eq_nil_iff]
      intro a ha
      simpa using hnone a ha
    rw [hf]
    simp

theorem c4_not_found_errors_witness :
    get_job_by_id ⟨1, 0, []⟩ 999 = .error (.notFound 999) ∧
      delete_job ⟨1, 0, []⟩ 999 = (⟨1, 0, []⟩, .error (.notFound 999)) ∧
      update_job ⟨1, 0, []⟩ ⟨some 999, none, none, [], [], .applied, [], ⟨0, 0⟩⟩ =
        (⟨1, 0, []⟩, .error (.notFound 999)) :=
  c4_not_found_errors ⟨1, 0, []⟩ 999 ⟨some 999, none, none, [], [], .applied, [], ⟨0, 0⟩⟩
    (by simp) rfl

/-- C6: updating a record whose id field is unset fails with the not-found
error keyed on the sentinel identifier 0 and leaves the store unchanged. -/
theorem c6_update_no_id (db : DbState) (job : JobApplication) (h : job.id = none) :
    update_job db job = (db, .error (.notFound 0)) := by
  unfold update_job
  rw [h]

theorem c6_update_no_id_witness :
    update_job ⟨1, 0, []⟩ ⟨none, none, none, [], [], .applied, [], ⟨0, 0⟩⟩ =
      (⟨1, 0, []⟩, .error (.notFound 0)) :=
  c6_update_no_id ⟨1, 0, []⟩ ⟨none, none, none, [], [], .applied, [], ⟨0, 0⟩⟩ rfl

/-! ## Salary coercion on read (C7) -/

theorem row_to_job_salary (row : Row) (j : JobApplication)
    (h : row_to_job_application row = .ok j) :
    j.salary = ⟨u32TryFromOrZero row.salary_min, u32TryFromOrZero row.salary_max⟩ := by
  unfold row_to_job_application at h
  cases hd : parseDateCol row.date with
  | error e => rw [hd] at h; simp at h
  | ok date =>
    rw [hd] at h
    cases hs : Status.from_db_string row.status with
    | error e => rw [hs] at h; simp at h
    | ok st =>
      rw [hs] at h
      simp only [Except.ok.injEq] at h
      rw [← h]

/-- C7: row deserialization coerces each stored salary integer to unsigned
32-bit, preserving in-range values exactly and mapping negative or
out-of-range values to 0 instead of failing. -/
theorem c7_salary_clamp (row : Row) (j : JobApplication)
    (h : row_to_job_application row = .ok j) :
    ((0 ≤ row.salary_min ∧ row.salary_min < 2 ^ 32) → (j.salary.min : Int) = row.salary_min) ∧
      ((row.salary_min < 0 ∨ 2 ^ 32 ≤ row.salary_min) → j.salary.min = 0) ∧
      ((0 ≤ row.salary_max ∧ row.salary_max < 2 ^ 32) → (j.salary.max : Int) = row.salary_max) ∧
      ((row.salary_max < 0 ∨ 2 ^ 32 ≤ row.salary_max) → j.salary.max = 0) := by
  rw [row_to_job_salary row j h]
  refine ⟨?_, ?_, ?_, ?_⟩ <;> intro hc <;> dsimp only <;> unfold u32TryFromOrZero
  · rw [if_pos hc]
    omega
  · rw [if_neg (by omega)]
  · rw [if_pos hc]
    omega
  · rw [if_neg (by omega)]

def c7row : Row := ⟨1, none, none, [], [], appliedTag, [], -5, 5000000000, 0⟩

def c7job : JobApplication := ⟨some 1, none, none, [], [], .applied, [], ⟨0, 0⟩⟩

theorem c7_salary_clamp_witness : c7job.salary.min = 0 ∧ c7job.salary.max = 0 :=
  ⟨(c7_salary_clamp c7row c7job rfl).2.1 (Or.inl (by decide)),
    (c7_salary_clamp c7row c7job rfl).2.2.2 (Or.inr (by decide))⟩

/-! ## Insert then fetch (C3) -/

theorem find?_append_all_false (l : List Row) (x : Row) (p : Row → Bool)
    (h : ∀ r ∈ l, p r = false) :
    (l ++ [x]).find? p = if p x then some x else none := by
  induction l with
  | nil =>
    simp only [List.nil_append]
    cases hx : p x with
    | false => simp [List.find?, hx]
    | true => simp [List.find?, hx]
  | cons a as ih =>
    rw [List.cons_append, List.find?_cons_of_neg _ (by simp [h a (by simp)])]
    exact ih (fun r hr => h r (by simp [hr]))

theorem parseDateCol_map_dateRender (od : Option Date) (h : od.all Date.valid = true)
    (hiso : od.all Date.isoRoundtrip = true) :
    parseDateCol (od.map dateRender) = .ok od := by
  cases od with
  | none => rfl
  | some d =>
    have hv : d.valid = true := by simpa using h
    have hy : (0 : Int) ≤ d.year := by simpa [Date.isoRoundtrip] using hiso
    show (match dateParse (dateRender d) with
          | some d2 => Except.ok (some d2)
          | none =>
            Except.error (DbError.invalidStatus ("Invalid date format: ".data ++ dateRender d))) =
        Except.ok (some d)
    rw [dateParse_dateRender d hv hy]

theorem row_to_job_jobToRow (db : DbState) (job : JobApplication) (h : job.wf = true)
    (hiso : job.date.all Date.isoRoundtrip = true) :
    row_to_job_application (jobToRow db job) = .ok { job with id := some db.nextId } := by
  unfold JobApplication.wf at h
  simp only [Bool.and_eq_true, decide_eq_true_eq] at h
  obtain ⟨⟨⟨hdate, hstatus⟩, hmin⟩, hmax⟩ := h
  have m1 : u32TryFromOrZero ((job.salary.min : Nat) : Int) = job.salary.min := by
    unfold u32TryFromOrZero
    rw [if_pos (by omega)]
    omega
  have m2 : u32TryFromOrZero ((job.salary.max : Nat) : Int) = job.salary.max := by
    unfold u32TryFromOrZero
    rw [if_pos (by omega)]
    omega
  unfold row_to_job_application jobToRow
  dsimp only
  simp only [parseDateCol_map_dateRender job.date hdate hiso,
    from_to_db_string job.status hstatus, m1, m2]

/-- C3 (amended): for a record whose date, when present, has a nonnegative
year — the dates whose ISO-8601 rendering the unsigned read path parses
back — inserting the record and fetching by the returned identifier yields a
record equal to the input in every field except `id`, which becomes `some`
of the returned positive identifier. -/
theorem c3_insert_then_get (db : DbState) (job : JobApplication)
    (hdb : db.wf) (hjob : job.wf = true)
    (hiso : job.date.all Date.isoRoundtrip = true) :
    0 < (insert_job db job).2 ∧
      get_job_by_id (insert_job db job).1 (insert_job db job).2 =
        .ok { job with id := some (insert_job db job).2 } := by
  obtain ⟨hid1, hmarks, hids, hall⟩ := hdb
  constructor
  · show (0 : Int) < db.nextId
    omega
  · have h2 : (insert_job db job).1.rows = db.rows ++ [jobToRow db job] := rfl
    have hfind : ((db.rows ++ [jobToRow db job]).find? (fun r => r.id == db.nextId)) =
        some (jobToRow db job) := by
      rw [find?_append_all_false]
      · rw [if_pos (by simp [jobToRow])]
      · intro r hr
        have := (hall r hr).2.1
        simp only [beq_eq_false_iff_ne, ne_eq]
        omega
    show get_job_by_id (insert_job db job).1 db.nextId = _
    unfold get_job_by_id
    rw [h2, hfind]
    exact row_to_job_jobToRow db job hjob hiso

def c3db : DbState := ⟨1, 0, []⟩

def c3job : JobApplication :=
  ⟨none, some ⟨2024, 1, 15⟩, some ['c', 'v'], ['T'], ['E'], .offer 95000, ['R'],
    ⟨80000, 120000⟩⟩

theorem c3_insert_then_get_witness :
    0 < (insert_job c3db c3job).2 ∧
      get_job_by_id (insert_job c3db c3job).1 (insert_job c3db c3job).2 =
        .ok { c3job with id := some (insert_job c3db c3job).2 } :=
  c3_insert_then_get c3db c3job (by decide) (by decide) (by decide)

def c3negjob : JobApplication :=
  ⟨none, some ⟨-5, 3, 15⟩, none, [], [], .applied, [], ⟨0, 0⟩⟩

/-- C3 (counterexample): a record whose date has the crate-valid negative
year `-5` is a legitimate input (its well-formedness holds), but the insert
path writes the signed text `"-0005-03-15"`, which the unsigned ISO-8601
read path rejects — fetching by the returned identifier yields a decode
error instead of the inserted record, so the claim fails for every record
with a negative-year date. -/
theorem c3_insert_then_get_counterexample :
    c3negjob.wf = true ∧
      get_job_by_id (insert_job ⟨1, 0, []⟩ c3negjob).1 (insert_job ⟨1, 0, []⟩ c3negjob).2 =
        .error (.invalidStatus
          ("Invalid date format: ".data ++ dateRender ⟨-5, 3, 15⟩)) :=
  ⟨by decide, rfl⟩

/-! ## Fetch-all ordering (C5) -/

theorem orderedInsert_all_not (x : Row) (l : List Row) (h : ∀ y ∈ l, ¬ rowLater x y) :
    List.orderedInsert rowLater x l = l ++ [x] := by
  induction l with
  | nil => rfl
  | cons a as ih =>
    simp only [List.orderedInsert]
    rw [if_neg (h a (List.mem_cons_self a as))]
    rw [ih (fun y hy => h y (List.mem_cons_of_mem a hy))]
    rfl

theorem insertionSort_strict_desc (l : List Row)
    (h : l.Pairwise (fun a b => a.created_at < b.created_at)) :
    List.insertionSort rowLater l = l.reverse := by
  induction l with
  | nil => rfl
  | cons a as ih =>
    rw [List.pairwise_cons] at h
    simp only [List.insertionSort]
    have hnot : ∀ y ∈ as.reverse, ¬ rowLater a y := by
      intro y hy
      rw [List.mem_reverse] at hy
      have := h.1 y hy
      unfold rowLater
      omega
    rw [ih h.2, orderedInsert_all_not a as.reverse hnot]
    simp

theorem collectJobs_ok_forall (l : List Row) (js : List JobApplication)
    (h : collectJobs l = .ok js) :
    List.Forall₂ (fun r j => row_to_job_application r = .ok j) l js := by
  induction l generalizing js with
  | nil =>
    unfold collectJobs at h
    simp only [Except.ok.injEq] at h
    subst h
    exact List.Forall₂.nil
  | cons r rest ih =>
    unfold collectJobs at h
    cases hr : row_to_job_application r with
    | error e => rw [hr] at h; simp at h
    | ok j =>
      rw [hr] at h
      cases hc : collectJobs rest with
      | error e => rw [hc] at h; simp at h
      | ok js2 =>
        rw [hc] at h
        simp only [Except.ok.injEq] at h
        subst h
        exact List.Forall₂.cons hr (ih js2 hc)

/-- C5: fetch-all deserializes the stored rows ordered by the internal
creation marker, most recently created first (for a store satisfying the
engine invariants this is the reverse of insertion order); an empty store
yields the empty sequence rather than an error, and a successful result
pairs every stored row, in that order, with its fully deserialized record. -/
theorem c5_get_all_jobs (db : DbState) (hdb : db.wf) :
    get_all_jobs db = collectJobs db.rows.reverse ∧
      (db.rows = [] → get_all_jobs db = .ok []) ∧
      ∀ js, get_all_jobs db = .ok js →
        List.Forall₂ (fun r j => row_to_job_application r = .ok j) db.rows.reverse js := by
  have hsort : List.insertionSort rowLater db.rows = db.rows.reverse :=
    insertionSort_strict_desc db.rows hdb.2.1
  refine ⟨?_, ?_, ?_⟩
  · unfold get_all_jobs
    rw [hsort]
  · intro h
    unfold get_all_jobs
    rw [hsort, h]
    rfl
  · intro js h
    unfold get_all_jobs at h
    rw [hsort] at h
    exact collectJobs_ok_forall _ _ h

def c5row1 : Row := ⟨1, none, none, [], [], appliedTag, [], 0, 0, 0⟩

def c5row2 : Row := ⟨2, none, none, [], [], rejectedTag, [], 0, 0, 1⟩

def c5db : DbState := ⟨3, 2, [c5row1, c5row2]⟩

theorem c5_get_all_jobs_witness :
    get_all_jobs c5db = collectJobs c5db.rows.reverse ∧
      get_all_jobs ⟨1, 0, []⟩ = .ok [] :=
  ⟨(c5_get_all_jobs c5db (by decide)).1,
    (c5_get_all_jobs ⟨1, 0, []⟩ (by decide)).2.1 rfl⟩

/-! ## Update overwrites exactly the mutable fields (C8) -/

/-- C8: a successful update (record carries an id and a matching row exists)
maps every row through an identity except the row with the requested id,
whose mutable columns are overwritten with the record's serialized fields
while its `id` and creation marker are unchanged; the engine counters and
the row count are also unchanged. -/
theorem c8_update_frame (db : DbState) (job : JobApplication) (i : Int)
    (h1 : job.id = some i) (h2 : ∃ r ∈ db.rows, r.id = i) :
    (update_job db job).2 = .ok () ∧
      (update_job db job).1.nextId = db.nextId ∧
      (update_job db job).1.nextMark = db.nextMark ∧
      (update_job db job).1.rows.length = db.rows.length ∧
      (∀ (k : Nat) (r : Row), db.rows[k]? = some r →
        (r.id ≠ i → (update_job db job).1.rows[k]? = some r) ∧
        (r.id = i → (update_job db job).1.rows[k]? = some (applyUpdate job r))) ∧
      ∀ r : Row, (applyUpdate job r).id = r.id ∧
        (applyUpdate job r).created_at = r.created_at ∧
        (applyUpdate job r).date = job.date.map dateRender ∧
        (applyUpdate job r).cv_path = job.cv ∧
        (applyUpdate job r).company = job.company ∧
        (applyUpdate job r).position = job.position ∧
        (applyUpdate job r).status = job.status.to_db_string ∧
        (applyUpdate job r).location = job.location ∧
        (applyUpdate job r).salary_min = (job.salary.min : Int) ∧
        (applyUpdate job r).salary_max = (job.salary.max : Int) := by
  obtain ⟨r0, hr0, hr0i⟩ := h2
  have hfilter : (db.rows.filter (fun r => r.id == i)).length ≠ 0 := by
    have hmem : r0 ∈ db.rows.filter (fun r => r.id == i) := by
      rw [List.mem_filter]
      exact ⟨hr0, by simp [hr0i]⟩
    intro hlen
    rw [List.length_eq_zero] at hlen
    rw [hlen] at hmem
    simp at hmem
  have hupd : update_job db job =
      ({ db with rows := db.rows.map (fun r => if r.id == i then applyUpdate job r else r) },
        .ok ()) := by
    unfold update_job
    rw [h1]
    show (if (db.rows.filter (fun r => r.id == i)).length = 0
          then (db, Except.error (DbError.notFound i))
          else ({ db with
              rows := db.rows.map (fun r => if r.id == i then applyUpdate job r else r) },
            Except.ok ())) = _
    rw [if_neg hfilter]
  rw [hupd]
  refine ⟨rfl, rfl, rfl, by simp, ?_, ?_⟩
  · intro k r hk
    constructor
    · intro hne
      show (db.rows.map fun r => if r.id == i then applyUpdate job r else r)[k]? = some r
      rw [List.getElem?_map, hk]
      simp [hne]
    · intro heq
      show (db.rows.map fun r => if r.id == i then applyUpdate job r else r)[k]? =
        some (applyUpdate job r)
      rw [List.getElem?_map, hk]
      simp [heq]
  · intro r
    unfold applyUpdate
    exact ⟨rfl, rfl, rfl, rfl, rfl, rfl, rfl, rfl, rfl, rfl⟩

def c8row : Row := ⟨1, none, none, ['O'], ['P'], appliedTag, ['L'], 1, 2, 0⟩

def c8db : DbState := ⟨2, 1, [c8row]⟩

def c8job : JobApplication :=
  ⟨some 1, none, none, ['N'], ['Q'], .rejected, ['M'], ⟨3, 4⟩⟩

theorem c8_update_frame_witness :
    (update_job c8db c8job).2 = .ok () ∧
      (update_job c8db c8job).1.rows[0]? = some (applyUpdate c8job c8row) ∧
      (applyUpdate c8job c8row).id = c8row.id ∧
      (applyUpdate c8job c8row).created_at = c8row.created_at :=
  ⟨(c8_update_frame c8db c8job 1 rfl ⟨c8row, by simp [c8db], rfl⟩).1,
    ((c8_update_frame c8db c8job 1 rfl ⟨c8row, by simp [c8db], rfl⟩).2.2.2.2.1 0 c8row
      rfl).2 rfl,
    (c8_update_frame c8db c8job 1 rfl ⟨c8row, by simp [c8db], rfl⟩).2.2.2.2.2 c8row |>.1,
    ((c8_update_frame c8db c8job 1 rfl ⟨c8row, by simp [c8db], rfl⟩).2.2.2.2.2 c8row).2.1⟩

/-! ## Field setters (C9) -/

def c9job : JobApplication := ⟨none, none, none, [], [], .applied, [], ⟨0, 0⟩⟩

/-- C9 (counterexample): the date setter is not total — on the triple
`(2024, 13, 1)` the source's `Month::try_from(13).unwrap()` panics, modelled
here by `none`, so not every year/month/day triple succeeds. -/
theorem c9_setters_counterexample : c9job.setDate 2024 13 1 = none := by decide

/-- C9 (amended): every field setter except the date setter is an
unconditional pure replacement of its field; the date setter replaces only
the date and succeeds exactly on valid calendar triples (month 1-12, day
valid for that month and year, year within the crate's supported
`-9999..=9999` range), panicking (modelled `none`) otherwise. -/
theorem c9_setters (j : JobApplication) :
    (∀ c, j.setCompany c = { j with company := c }) ∧
      (∀ p, j.setPosition p = { j with position := p }) ∧
      (∀ l, j.setLocation l = { j with location := l }) ∧
      (∀ c, j.setCv c = { j with cv := some c }) ∧
      (∀ s, j.setSalary s = { j with salary := s }) ∧
      (∀ st, j.setStatus st = { j with status := st }) ∧
      ∀ (y : Int) (m d : Nat),
        ((⟨y, m, d⟩ : Date).valid = true →
          j.setDate y m d = some { j with date := some ⟨y, m, d⟩ }) ∧
        ((⟨y, m, d⟩ : Date).valid = false → j.setDate y m d = none) := by
  refine ⟨fun c => rfl, fun p => rfl, fun l => rfl, fun c => rfl, fun s => rfl,
    fun st => rfl, ?_⟩
  intro y m d
  constructor
  · intro hval
    have hm : 1 ≤ m ∧ m ≤ 12 := by
      unfold Date.valid at hval
      simp only [Bool.and_eq_true, decide_eq_true_eq] at hval
      exact ⟨hval.1.1.1.2, hval.1.1.2⟩
    unfold JobApplication.setDate monthTryFrom
    rw [if_pos hm]
    show (match dateFromCalendar y m d with
          | none => none
          | some dt => some { j with date := some dt }) = _
    unfold dateFromCalendar
    rw [if_pos hval]
  · intro hval
    unfold JobApplication.setDate monthTryFrom
    by_cases hm : 1 ≤ m ∧ m ≤ 12
    · rw [if_pos hm]
      show (match dateFromCalendar y m d with
            | none => none
            | some dt => some { j with date := some dt }) = none
      unfold dateFromCalendar
      rw [if_neg (by simp [hval])]
    · rw [if_neg hm]

theorem c9_setters_witness :
    c9job.setCompany ['A'] = { c9job with company := ['A'] } ∧
      c9job.setDate 2024 2 29 = some { c9job with date := some ⟨2024, 2, 29⟩ } ∧
      c9job.setDate (-5) 3 15 = some { c9job with date := some ⟨-5, 3, 15⟩ } ∧
      c9job.setDate 2023 2 29 = none :=
  ⟨(c9_setters c9job).1 ['A'],
    ((c9_setters c9job).2.2.2.2.2.2 2024 2 29).1 (by decide),
    ((c9_setters c9job).2.2.2.2.2.2 (-5) 3 15).1 (by decide),
    ((c9_setters c9job).2.2.2.2.2.2 2023 2 29).2 (by decide)⟩

end JobTracker
